import Mathlib

/-!
Verification of the streaming control-flow reconstruction engine of the
Callgrind profile synthesizer (`CallgrindGenerator` in `src/test2.cpp`,
the draft headed `callgrind_generator_final.hpp`).

The engine is shallowly embedded: `std::unordered_map` becomes an
association list keyed by `Nat` (first-occurrence lookup, in-place update,
append on miss — exactly the observable behaviour of `operator[]` and
`find`), `std::stack` becomes a `List` whose head is the top, `uint64_t`
counters become `Nat` (all counter updates in the engine are increments;
the one subtraction, the inclusive-cost delta at RETURN, is taken on
snapshots that never exceed the running totals in any reachable state),
and `std::string` becomes `String`.
-/

set_option maxRecDepth 10000

/-- Association-list lookup: first entry with the given key, like
`unordered_map::find`. -/
def alFind {V : Type} : List (Nat × V) → Nat → Option V
  | [], _ => none
  | (a, v) :: rest, k => if k = a then some v else alFind rest k

/-- Value at a key, with a default for a missing key: the read side of
`unordered_map::operator[]` on a default-constructible mapped type. -/
def alGet {V : Type} (d : V) (m : List (Nat × V)) (k : Nat) : V :=
  (alFind m k).getD d

/-- Key-membership test, like `find != end`. -/
def alMem {V : Type} (m : List (Nat × V)) (k : Nat) : Bool :=
  (alFind m k).isSome

/-- In-place update through `operator[]`: mutate the entry at the key if
present, otherwise insert the mutation of a default-constructed value. -/
def alUpd {V : Type} (d : V) : List (Nat × V) → Nat → (V → V) → List (Nat × V)
  | [], k, f => [(k, f d)]
  | (a, v) :: rest, k, f =>
      if k = a then (a, f v) :: rest else (a, v) :: alUpd d rest k f

/-- `MAX_EVENTS` from the source. -/
def MAX_EVENTS : Nat := 10

/-- `enum class FunctionType`. -/
inductive FunctionType where
  | NORMAL
  | SAVE_HELPER
  | RESTORE_HELPER
deriving DecidableEq, Repr

/-- `enum class BranchType`. -/
inductive BranchType where
  | NONE
  | BRANCH
  | DIRECT_JUMP
  | INDIRECT_JUMP
  | CALL
  | RETURN
  | TAIL_CALL
  | FALL_THROUGH
deriving DecidableEq, Repr

/-- `struct PCInfo`: static per-PC metadata plus the self-cost event
array. The `event` array is a total function on indices; the engine only
touches indices below `MAX_EVENTS`. -/
structure PCInfo where
  pc : Nat
  func : String
  assembly : String
  file : String
  line : Nat
  event : Nat → Nat
  func_type : FunctionType

/-- A default-constructed `PCInfo`. -/
def defPCInfo : PCInfo :=
  { pc := 0, func := "", assembly := "", file := "", line := 0,
    event := fun _ => 0, func_type := .NORMAL }

/-- `struct CallTargetInfo`: one call edge's payload. -/
structure CallTargetInfo where
  count : Nat
  inclusive_events : Nat → Nat
  is_fall_through : Bool

/-- A default-constructed `CallTargetInfo`. -/
def defCTI : CallTargetInfo :=
  { count := 0, inclusive_events := fun _ => 0, is_fall_through := false }

/-- `struct BranchInfo`: one conditional-branch site. -/
structure BranchInfo where
  total_executed : Nat
  taken_target : Nat
  taken_count : Nat
  fallthrough_target : Nat
  fallthrough_count : Nat
deriving DecidableEq, Repr

/-- A default-constructed `BranchInfo`. -/
def defBranchInfo : BranchInfo :=
  { total_executed := 0, taken_target := 0, taken_count := 0,
    fallthrough_target := 0, fallthrough_count := 0 }

/-- `struct CallStackEntry`: one shadow-stack frame. -/
structure CallStackEntry where
  caller_pc : Nat
  callee_pc : Nat
  caller_func : String
  callee_func : String
  events_at_entry : Nat → Nat
  is_tail_call : Bool
  is_fall_through : Bool

/-- The mutable state of `CallgrindGenerator` (the fields the recording
path reads or writes; the emitter-only configuration is omitted). The
shadow stack is a list whose head is `stack.top()`. -/
structure GenState where
  info : List (Nat × PCInfo)
  calls : List (Nat × List (Nat × CallTargetInfo))
  jumps : List (Nat × List (Nat × Nat))
  branches : List (Nat × BranchInfo)
  call_stack : List CallStackEntry
  last_pc : Nat
  last_dest_reg : Int
  last_was_branch : Bool
  last_inst_size : Nat
  accumulated_events : Nat → Nat
  last_func_name : String
  real_caller_pc : Nat
  real_caller_func : String
  dump_instr : Bool
  branch_sim : Bool
  collect_jumps : Bool

/-- The constructor-initialized state of `CallgrindGenerator`. -/
def initState : GenState :=
  { info := [], calls := [], jumps := [], branches := [], call_stack := [],
    last_pc := 0, last_dest_reg := -1, last_was_branch := false,
    last_inst_size := 4, accumulated_events := fun _ => 0,
    last_func_name := "", real_caller_pc := 0, real_caller_func := "",
    dump_instr := true, branch_sim := true, collect_jumps := true }

/-- `isSaveHelper`. -/
def isSaveHelper (t : FunctionType) : Bool := t = .SAVE_HELPER

/-- `isRestoreHelper`. -/
def isRestoreHelper (t : FunctionType) : Bool := t = .RESTORE_HELPER

/-- `isCompilerHelper`. -/
def isCompilerHelper (t : FunctionType) : Bool := t ≠ .NORMAL

/-- `determineFunctionType`: classify a function name by prefix match
(`sv.substr(0, len(p)) == p` is exactly a prefix test). -/
def determineFunctionType (func_name : String) : FunctionType :=
  if func_name.take "__riscv_save".length = "__riscv_save" then .SAVE_HELPER
  else if func_name.take "__riscv_restore".length = "__riscv_restore" then .RESTORE_HELPER
  else .NORMAL

/-- `detectInstructionSize`: 2 when the assembly text contains the token
`c.` (the source's second disjunct, searching for a tab-preceded `c.`, is
subsumed by the first). -/
def detectInstructionSize (assembly : String) : Nat :=
  if (assembly.splitOn "c.").length > 1 then 2 else 4

/-- Function name of a PC as `handleBranch` computes it (`"unknown"` for
a PC missing from the index). -/
def funcAt (m : List (Nat × PCInfo)) (pc : Nat) : String :=
  match alFind m pc with
  | some p => p.func
  | none => "unknown"

/-- Function type of a PC as `handleBranch` computes it (`NORMAL` for a
PC missing from the index). -/
def ftypeAt (m : List (Nat × PCInfo)) (pc : Nat) : FunctionType :=
  match alFind m pc with
  | some p => p.func_type
  | none => .NORMAL

/-- The stack-top check inside `detectBranchType`: the destination lies
in the same function as the top frame's call site. -/
def returnsToCaller (s : GenState) (to_info : PCInfo) : Bool :=
  match s.call_stack with
  | [] => false
  | top :: _ =>
      match alFind s.info top.caller_pc with
      | some caller_info => to_info.func == caller_info.func
      | none => false

/-- `detectBranchType`: the transition classifier, a pure function of the
previous/current PC, the destination-register hint, sequentiality, the
static index and the shadow-stack top. -/
def detectBranchType (s : GenState) (from_pc to_pc : Nat) (dest_reg : Int)
    (is_sequential : Bool) : BranchType :=
  match alFind s.info from_pc, alFind s.info to_pc with
  | some from_info, some to_info =>
      let from_type := from_info.func_type
      let to_type := to_info.func_type
      if isCompilerHelper from_type && isRestoreHelper from_type &&
         !isCompilerHelper to_type then .RETURN
      else if isCompilerHelper from_type && isRestoreHelper from_type &&
         isRestoreHelper to_type && is_sequential then .NONE
      else if is_sequential && from_info.func != to_info.func &&
         !isCompilerHelper from_type then .FALL_THROUGH
      else if !is_sequential && isCompilerHelper to_type && isSaveHelper to_type then .CALL
      else if !is_sequential && isCompilerHelper to_type && isRestoreHelper to_type then .TAIL_CALL
      else if !is_sequential && returnsToCaller s to_info then .RETURN
      else if !is_sequential && from_info.func != to_info.func then
        (if dest_reg == 0 then .TAIL_CALL else .CALL)
      else if is_sequential then .BRANCH
      else if to_pc < from_pc then .BRANCH
      else if to_pc - from_pc ≤ 32 then .BRANCH
      else .DIRECT_JUMP
  | _, _ => if is_sequential then .BRANCH else .DIRECT_JUMP

/-- `++calls[from_pc][to_pc].count` (the CALL and TAIL_CALL bookkeeping). -/
def bumpCall (calls : List (Nat × List (Nat × CallTargetInfo))) (from_pc to_pc : Nat) :
    List (Nat × List (Nat × CallTargetInfo)) :=
  alUpd [] calls from_pc (fun inner =>
    alUpd defCTI inner to_pc (fun ci => { ci with count := ci.count + 1 }))

/-- The FALL_THROUGH bookkeeping: bump the count and flag the edge. -/
def bumpCallFT (calls : List (Nat × List (Nat × CallTargetInfo))) (from_pc to_pc : Nat) :
    List (Nat × List (Nat × CallTargetInfo)) :=
  alUpd [] calls from_pc (fun inner =>
    alUpd defCTI inner to_pc (fun ci =>
      { ci with count := ci.count + 1, is_fall_through := true }))

/-- Add a per-event delta to an edge's `inclusive_events` (the RETURN
bookkeeping). -/
def addIncl (calls : List (Nat × List (Nat × CallTargetInfo))) (from_pc to_pc : Nat)
    (delta : Nat → Nat) : List (Nat × List (Nat × CallTargetInfo)) :=
  alUpd [] calls from_pc (fun inner =>
    alUpd defCTI inner to_pc (fun ci =>
      { ci with inclusive_events := fun i => ci.inclusive_events i + delta i }))

/-- `++info[pc].event[j]`. -/
def bumpEvent (m : List (Nat × PCInfo)) (pc j : Nat) : List (Nat × PCInfo) :=
  alUpd defPCInfo m pc (fun p =>
    { p with event := fun i => if i = j then p.event i + 1 else p.event i })

/-- The call edge stored for `(from_pc, to_pc)` (default-constructed if
absent, matching `operator[]`). -/
def edgeAt (calls : List (Nat × List (Nat × CallTargetInfo))) (from_pc to_pc : Nat) :
    CallTargetInfo :=
  alGet defCTI (alGet [] calls from_pc) to_pc

/-- The self-event counter of a PC (default zero for an absent PC). -/
def evAt (m : List (Nat × PCInfo)) (pc i : Nat) : Nat :=
  (alGet defPCInfo m pc).event i

/-- The branch-site mutation of the BRANCH case: bump `total_executed`
and either the fall-through or the taken side, recording the target. -/
def brUpdate (b : BranchInfo) (to_pc : Nat) (is_sequential : Bool) : BranchInfo :=
  let b1 := { b with total_executed := b.total_executed + 1 }
  if is_sequential then
    { b1 with fallthrough_target := to_pc,
              fallthrough_count := b1.fallthrough_count + 1 }
  else
    { b1 with taken_target := to_pc, taken_count := b1.taken_count + 1 }

/-- The body of the `BranchType::CALL` case after the save-helper
substitution has fixed the effective caller. -/
def doCall (s : GenState) (from_pc to_pc : Nat) (from_func to_func : String)
    (to_type : FunctionType) : GenState :=
  let s1 := if isSaveHelper to_type then
      { s with real_caller_pc := from_pc, real_caller_func := from_func }
    else s
  let entry : CallStackEntry :=
    { caller_pc := from_pc, callee_pc := to_pc, caller_func := from_func,
      callee_func := to_func, events_at_entry := s.accumulated_events,
      is_tail_call := false, is_fall_through := false }
  { s1 with call_stack := entry :: s1.call_stack,
            calls := bumpCall s1.calls from_pc to_pc }

/-- `handleBranch`: dispatch one classified transition against the shadow
stack and the edge ledger. -/
def handleBranch (s : GenState) (from_pc to_pc : Nat) (ty : BranchType)
    (is_sequential : Bool) : GenState :=
  let from_func := funcAt s.info from_pc
  let to_func := funcAt s.info to_pc
  let from_type := ftypeAt s.info from_pc
  let to_type := ftypeAt s.info to_pc
  match ty with
  | .NONE => s
  | .CALL =>
      if isCompilerHelper from_type then
        if isSaveHelper from_type && s.real_caller_func != "" then
          doCall { s with real_caller_pc := 0, real_caller_func := "" }
            s.real_caller_pc to_pc s.real_caller_func to_func to_type
        else s
      else doCall s from_pc to_pc from_func to_func to_type
  | .TAIL_CALL =>
      if isCompilerHelper from_type then s
      else
        let s1 := { s with calls := bumpCall s.calls from_pc to_pc }
        match s1.call_stack with
        | [] => s1
        | _ :: _ =>
            { s1 with call_stack :=
                { caller_pc := from_pc, callee_pc := to_pc,
                  caller_func := from_func, callee_func := to_func,
                  events_at_entry := s.accumulated_events,
                  is_tail_call := true, is_fall_through := false } :: s1.call_stack }
  | .FALL_THROUGH =>
      let s1 := { s with calls := bumpCallFT s.calls from_pc to_pc }
      { s1 with call_stack :=
          { caller_pc := from_pc, callee_pc := to_pc,
            caller_func := from_func, callee_func := to_func,
            events_at_entry := s.accumulated_events,
            is_tail_call := false, is_fall_through := true } :: s1.call_stack }
  | .RETURN =>
      match s.call_stack with
      | [] => s
      | entry :: rest =>
          let calls1 := addIncl s.calls entry.caller_pc entry.callee_pc
            (fun i => s.accumulated_events i - entry.events_at_entry i)
          if entry.is_tail_call then
            match rest with
            | original :: rest2 =>
                let calls2 := addIncl calls1 original.caller_pc original.callee_pc
                  (fun i => s.accumulated_events i - original.events_at_entry i)
                { s with calls := calls2, call_stack := rest2 }
            | [] => { s with calls := calls1, call_stack := [] }
          else { s with calls := calls1, call_stack := rest }
  | .BRANCH =>
      if s.collect_jumps then
        let b0 := alGet defBranchInfo s.branches from_pc
        let b1 := { b0 with total_executed := b0.total_executed + 1 }
        let b2 := if is_sequential then
            { b1 with fallthrough_target := to_pc,
                      fallthrough_count := b1.fallthrough_count + 1 }
          else
            { b1 with taken_target := to_pc, taken_count := b1.taken_count + 1 }
        let branches1 := alUpd defBranchInfo s.branches from_pc (fun _ => b2)
        let info1 := bumpEvent s.info from_pc 2
        let info2 :=
          if b2.taken_count > 0 ∧ b2.fallthrough_count > 0 then
            let minority := min b2.taken_count b2.fallthrough_count
            if b2.total_executed > 1 ∧
               (minority = b2.taken_count ∨ minority = b2.fallthrough_count) then
              bumpEvent info1 from_pc 3
            else info1
          else info1
        { s with branches := branches1, info := info2 }
      else s
  | .DIRECT_JUMP | .INDIRECT_JUMP =>
      if isCompilerHelper from_type then s
      else if s.collect_jumps then
        let jumps1 := alUpd [] s.jumps from_pc (fun inner =>
          alUpd 0 inner to_pc (fun c => c + 1))
        if ty = .INDIRECT_JUMP then
          let info1 := bumpEvent s.info from_pc 4
          let info2 := if (alGet [] jumps1 from_pc).length > 1 then
              bumpEvent info1 from_pc 5
            else info1
          { s with jumps := jumps1, info := info2 }
        else { s with jumps := jumps1 }
      else s

/-- `loadPCInfo`: populate the static PC index before the stream starts. -/
def loadPCInfo (s : GenState) (pc : Nat) (func assembly file : String) (line : Nat) :
    GenState :=
  { s with info := alUpd defPCInfo s.info pc (fun p =>
      { p with pc := pc, func := func, assembly := assembly, file := file,
               line := line, func_type := determineFunctionType func }) }

/-- Step 1 of `recordExecution`: synthesize a `PCInfo` entry for an
unknown PC (`function = file = "unknown"`, `line = 0`, kind `NORMAL`). -/
def synthesizePC (s : GenState) (pc : Nat) : GenState :=
  if alMem s.info pc then s else
    { s with info := alUpd defPCInfo s.info pc (fun p =>
        { p with pc := pc, func := "unknown", file := "unknown", line := 0,
                 func_type := .NORMAL }) }

/-- Step 2 of `recordExecution`: credit the event delta to the PC's
self-events and to the running totals. -/
def creditSelf (s : GenState) (pc event_type count : Nat) : GenState :=
  { s with
    info := alUpd defPCInfo s.info pc (fun p =>
      { p with event := fun j =>
          if j = event_type then p.event j + count else p.event j }),
    accumulated_events := fun j =>
      if j = event_type then s.accumulated_events j + count
      else s.accumulated_events j }

/-- Step 3 of `recordExecution`: when a previous PC exists and it was a
branch or the function changed, classify the transition and dispatch it.
(`current_func` is read back from the index; crediting self cost does not
change the stored function name, so this matches the iterator the source
captures before the update.) -/
def classifyStep (s : GenState) (pc : Nat) : GenState :=
  if s.last_pc ≠ 0 then
    let current_func := (alGet defPCInfo s.info pc).func
    let function_changed := s.last_func_name != "" &&
      current_func != s.last_func_name
    if s.last_was_branch || function_changed then
      let is_sequential := pc == s.last_pc + s.last_inst_size
      handleBranch s s.last_pc pc
        (detectBranchType s s.last_pc pc s.last_dest_reg is_sequential)
        is_sequential
    else s
  else s

/-- `recordExecution`: the streaming per-instruction entry point. -/
def recordExecution (s : GenState) (pc : Nat) (event_type : Nat) (count : Nat)
    (dest_reg : Int) (is_branch_instruction : Bool) : GenState :=
  let s0 := synthesizePC s pc
  let pinfo := alGet defPCInfo s0.info pc
  let s2 := classifyStep (creditSelf s0 pc event_type count) pc
  { s2 with
    last_pc := pc, last_dest_reg := dest_reg,
    last_was_branch := is_branch_instruction,
    last_inst_size := if pinfo.assembly = "" then 4
      else detectInstructionSize pinfo.assembly,
    last_func_name := pinfo.func }

/-- One host `record` call of the trace. -/
structure RecordCall where
  pc : Nat
  event_type : Nat
  count : Nat
  dest_reg : Int
  is_branch : Bool
deriving DecidableEq, Repr

/-- Feed a whole trace of `record` calls to the engine, in order. -/
def runTrace (s : GenState) : List RecordCall → GenState
  | [] => s
  | c :: rest => runTrace (recordExecution s c.pc c.event_type c.count c.dest_reg c.is_branch) rest

/-- Sum of one event index over every PC of the index (the "sum over all
pcs of self_events" of the spec's invariant). -/
def sumEv (m : List (Nat × PCInfo)) (i : Nat) : Nat :=
  (m.map (fun kv => kv.2.event i)).sum

/-! ### Concrete scenarios used by the claims -/

/-- A two-record trace whose second record triggers a BRANCH dispatch:
both PCs are synthesized (same function `"unknown"`), the first record is
flagged as a branch instruction, and the successor is sequential. -/
def c1_trace : List RecordCall :=
  [⟨0x5000, 0, 1, -1, true⟩, ⟨0x5004, 0, 1, -1, false⟩]

/-- Static index for the tail-chain scenario: `main` at 0x1000..0x1008,
`f` at 0x2000..0x2008, `g` at 0x3000..0x3004. -/
def c2_state0 : GenState :=
  loadPCInfo (loadPCInfo (loadPCInfo (loadPCInfo (loadPCInfo (loadPCInfo (loadPCInfo (loadPCInfo initState
    0x1000 "main" "" "t.c" 1) 0x1004 "main" "" "t.c" 2) 0x1008 "main" "" "t.c" 3)
    0x2000 "f" "" "t.c" 10) 0x2004 "f" "" "t.c" 11) 0x2008 "f" "" "t.c" 12)
    0x3000 "g" "" "t.c" 20) 0x3004 "g" "" "t.c" 21

/-- `main` calls `f` (2 events accrue in `main` before the call), `f`
does one unit of work and tail-calls `g`, `g` does work and control comes
back into `f`'s function, firing the RETURN that closes the tail chain. -/
def c2_trace : List RecordCall :=
  [⟨0x1000, 0, 1, -1, false⟩, ⟨0x1004, 0, 1, 1, true⟩, ⟨0x2000, 0, 1, -1, false⟩,
   ⟨0x2004, 0, 1, 0, true⟩, ⟨0x3000, 0, 1, -1, false⟩, ⟨0x3004, 0, 1, -1, true⟩,
   ⟨0x2008, 0, 1, -1, false⟩]

/-- A shadow-stack frame for a tail call out of `f` whose snapshot is 5
on every event. -/
def c2w_f : CallStackEntry :=
  { caller_pc := 2, callee_pc := 3, caller_func := "f", callee_func := "g",
    events_at_entry := fun _ => 5, is_tail_call := true, is_fall_through := false }

/-- An outer shadow-stack frame whose snapshot is 3 on every event. -/
def c2w_g : CallStackEntry :=
  { caller_pc := 0, callee_pc := 1, caller_func := "m", callee_func := "f",
    events_at_entry := fun _ => 3, is_tail_call := false, is_fall_through := false }

/-- An engine state holding the two frames above with running totals 7. -/
def c2w_s : GenState :=
  { initState with call_stack := [c2w_f, c2w_g], accumulated_events := fun _ => 7 }

/-- Static index of spec scenario 1: `main` at 0x1000..0x100C, `f` at
0x2000..0x2004. -/
def c3_state0 : GenState :=
  loadPCInfo (loadPCInfo (loadPCInfo (loadPCInfo (loadPCInfo (loadPCInfo initState
    0x1000 "main" "" "t.c" 1) 0x1004 "main" "" "t.c" 2) 0x1008 "main" "" "t.c" 3)
    0x100C "main" "" "t.c" 4) 0x2000 "f" "" "t.c" 10) 0x2004 "f" "" "t.c" 11

/-- The ordered record calls of spec scenario 1 (plain call/return). -/
def c3_trace : List RecordCall :=
  [⟨0x1000, 0, 1, -1, false⟩, ⟨0x1004, 0, 1, 1, true⟩, ⟨0x2000, 0, 1, -1, false⟩,
   ⟨0x2004, 0, 1, -1, true⟩, ⟨0x1008, 0, 1, -1, false⟩]

/-- A one-record trace crediting event index 0 at an unknown PC. -/
def c4_wtrace : List RecordCall := [⟨0x9999, 0, 5, -1, false⟩]

/-- Static index of spec scenario 6: `a` at 0x6000..0x6004 and `b` at
0x6008, adjacent in memory. -/
def c8_state0 : GenState :=
  loadPCInfo (loadPCInfo (loadPCInfo initState
    0x6000 "a" "" "t.c" 1) 0x6004 "a" "" "t.c" 2) 0x6008 "b" "" "t.c" 5

/-- The ordered record calls of spec scenario 6 (cross-function
fall-through). -/
def c8_trace : List RecordCall :=
  [⟨0x6000, 0, 1, -1, false⟩, ⟨0x6004, 0, 1, -1, false⟩, ⟨0x6008, 0, 1, -1, false⟩]

/-- Static index of spec scenario 5: `main` at 0x1000..0x1008,
`__riscv_save_0` at 0x7000..0x7004, `user_fn` at 0x8000. -/
def c9_state0 : GenState :=
  loadPCInfo (loadPCInfo (loadPCInfo (loadPCInfo (loadPCInfo (loadPCInfo initState
    0x1000 "main" "" "t.c" 1) 0x1004 "main" "" "t.c" 2) 0x1008 "main" "" "t.c" 3)
    0x7000 "__riscv_save_0" "" "lib.S" 1) 0x7004 "__riscv_save_0" "" "lib.S" 2)
    0x8000 "user_fn" "" "t.c" 30

/-- The ordered record calls of spec scenario 5 (save-helper trampoline). -/
def c9_trace : List RecordCall :=
  [⟨0x1004, 0, 1, 1, true⟩, ⟨0x7000, 0, 1, -1, false⟩, ⟨0x7004, 0, 1, 1, true⟩,
   ⟨0x8000, 0, 1, -1, false⟩]

/-- Static index with a save helper at 0x7000 and a restore helper at
0x9000. -/
def c10_state0 : GenState :=
  loadPCInfo (loadPCInfo initState 0x7000 "__riscv_save_0" "" "lib.S" 1)
    0x9000 "__riscv_restore_0" "" "lib.S" 5

/-- One record inside the save helper, flagged as a branch instruction. -/
def c10_trace1 : List RecordCall := [⟨0x7000, 0, 1, -1, true⟩]

/-- The same trace continued into the restore helper: the transition
0x7000 → 0x9000 is non-sequential, so it is classified TAIL_CALL. -/
def c10_trace2 : List RecordCall :=
  [⟨0x7000, 0, 1, -1, true⟩, ⟨0x9000, 0, 1, -1, false⟩]

/-! ### Association-list lemmas -/

theorem alFind_alUpd {V : Type} (d : V) (m : List (Nat × V)) (k k' : Nat) (f : V → V) :
    alFind (alUpd d m k f) k' = if k' = k then some (f (alGet d m k)) else alFind m k' := by
  induction m with
  | nil => simp [alUpd, alFind, alGet]
  | cons hd tl ih =>
      obtain ⟨a, v⟩ := hd
      by_cases hka : k = a
      · subst hka
        by_cases hk' : k' = k <;> simp [alUpd, alFind, alGet, hk']
      · by_cases hk'a : k' = a
        · subst hk'a
          simp [alUpd, alFind, alGet, hka, Ne.symm hka]
        · simp [alUpd, alFind, alGet, hka, hk'a] at ih ⊢
          exact ih

theorem alGet_alUpd {V : Type} (d : V) (m : List (Nat × V)) (k k' : Nat) (f : V → V) :
    alGet d (alUpd d m k f) k' = if k' = k then f (alGet d m k) else alGet d m k' := by
  unfold alGet
  rw [alFind_alUpd]
  by_cases h : k' = k <;> simp [h, alGet]

theorem alGet_eq_of_alFind {V : Type} (d : V) (m : List (Nat × V)) (k : Nat) (v : V)
    (h : alFind m k = some v) : alGet d m k = v := by
  simp [alGet, h]

/-! ### Sum-of-self-events lemmas -/

theorem sumEv_nil (i : Nat) : sumEv [] i = 0 := rfl

theorem sumEv_cons (a : Nat) (v : PCInfo) (tl : List (Nat × PCInfo)) (i : Nat) :
    sumEv ((a, v) :: tl) i = v.event i + sumEv tl i := by
  simp [sumEv]

theorem sumEv_alUpd (m : List (Nat × PCInfo)) (k : Nat) (f : PCInfo → PCInfo)
    (i n : Nat) (hf : ∀ v, (f v).event i = v.event i + n) :
    sumEv (alUpd defPCInfo m k f) i = sumEv m i + n := by
  induction m with
  | nil =>
      simp only [alUpd, sumEv_cons, sumEv_nil, hf defPCInfo]
      simp [defPCInfo]
  | cons hd tl ih =>
      obtain ⟨a, v⟩ := hd
      by_cases hka : k = a
      · simp only [alUpd, if_pos hka, sumEv_cons, hf v]
        omega
      · simp only [alUpd, if_neg hka, sumEv_cons, ih]
        omega

theorem sumEv_bumpEvent (m : List (Nat × PCInfo)) (p j i : Nat) :
    sumEv (bumpEvent m p j) i = sumEv m i + (if i = j then 1 else 0) := by
  unfold bumpEvent
  apply sumEv_alUpd
  intro v
  by_cases h : i = j <;> simp [h]

/-! ### Per-PC event lemmas -/

theorem evAt_alUpd_event (m : List (Nat × PCInfo)) (k k' : Nat) (f : PCInfo → PCInfo)
    (i n : Nat) (hf : ∀ v, (f v).event i = v.event i + n) :
    evAt (alUpd defPCInfo m k f) k' i = evAt m k' i + (if k' = k then n else 0) := by
  unfold evAt
  rw [alGet_alUpd]
  by_cases h : k' = k <;> simp [h, hf]

theorem evAt_bumpEvent (m : List (Nat × PCInfo)) (p j p' i : Nat) :
    evAt (bumpEvent m p j) p' i = evAt m p' i + (if p' = p ∧ i = j then 1 else 0) := by
  unfold bumpEvent
  by_cases hij : i = j
  · rw [evAt_alUpd_event (n := 1)]
    · simp [hij]
    · intro v; simp [hij]
  · rw [evAt_alUpd_event (n := 0)]
    · simp [hij]
    · intro v; simp [hij]

/-! ### Call-edge lemmas -/

theorem edgeAt_bumpCall (c : List (Nat × List (Nat × CallTargetInfo))) (f t f' t' : Nat) :
    edgeAt (bumpCall c f t) f' t' =
      if f' = f ∧ t' = t then
        { edgeAt c f' t' with count := (edgeAt c f' t').count + 1 }
      else edgeAt c f' t' := by
  unfold edgeAt bumpCall
  rw [alGet_alUpd]
  by_cases h1 : f' = f
  · subst h1
    rw [if_pos rfl]
    rw [alGet_alUpd]
    by_cases h2 : t' = t
    · subst h2; simp
    · simp [h2]
  · simp [h1]

theorem edgeAt_bumpCallFT (c : List (Nat × List (Nat × CallTargetInfo))) (f t f' t' : Nat) :
    edgeAt (bumpCallFT c f t) f' t' =
      if f' = f ∧ t' = t then
        { edgeAt c f' t' with
            count := (edgeAt c f' t').count + 1
            is_fall_through := true }
      else edgeAt c f' t' := by
  unfold edgeAt bumpCallFT
  rw [alGet_alUpd]
  by_cases h1 : f' = f
  · subst h1
    rw [if_pos rfl]
    rw [alGet_alUpd]
    by_cases h2 : t' = t
    · subst h2; simp
    · simp [h2]
  · simp [h1]

theorem edgeAt_addIncl (c : List (Nat × List (Nat × CallTargetInfo))) (f t : Nat)
    (delta : Nat → Nat) (f' t' : Nat) :
    edgeAt (addIncl c f t delta) f' t' =
      if f' = f ∧ t' = t then
        { edgeAt c f' t' with inclusive_events := fun i =>
            (edgeAt c f' t').inclusive_events i + delta i }
      else edgeAt c f' t' := by
  unfold edgeAt addIncl
  rw [alGet_alUpd]
  by_cases h1 : f' = f
  · subst h1
    rw [if_pos rfl]
    rw [alGet_alUpd]
    by_cases h2 : t' = t
    · subst h2; simp
    · simp [h2]
  · simp [h1]

/-! ### Component-preservation lemmas for `handleBranch` -/

theorem handleBranch_acc (s : GenState) (f t : Nat) (ty : BranchType) (q : Bool) :
    (handleBranch s f t ty q).accumulated_events = s.accumulated_events := by
  cases ty <;> simp only [handleBranch, doCall] <;> (repeat' split) <;> rfl

theorem handleBranch_branches (s : GenState) (f t : Nat) (ty : BranchType) (q : Bool)
    (h : ty ≠ BranchType.BRANCH) :
    (handleBranch s f t ty q).branches = s.branches := by
  cases ty <;> simp only [handleBranch, doCall] <;> (repeat' split) <;> first | rfl | exact absurd rfl h

theorem handleBranch_sumEv (s : GenState) (f t : Nat) (ty : BranchType) (q : Bool) (i : Nat)
    (hty : ty ≠ BranchType.INDIRECT_JUMP) (h2 : i ≠ 2) (h3 : i ≠ 3) :
    sumEv (handleBranch s f t ty q).info i = sumEv s.info i := by
  cases ty <;> simp only [handleBranch, doCall] <;> (repeat' split) <;>
    first
      | exact absurd rfl hty
      | simp [sumEv_bumpEvent, h2, h3]

theorem handleBranch_ev (s : GenState) (f t : Nat) (ty : BranchType) (q : Bool) (p i : Nat)
    (hty : ty ≠ BranchType.INDIRECT_JUMP) (h2 : i ≠ 2) (h3 : i ≠ 3) :
    evAt (handleBranch s f t ty q).info p i = evAt s.info p i := by
  cases ty <;> simp only [handleBranch, doCall] <;> (repeat' split) <;>
    first
      | exact absurd rfl hty
      | simp [evAt_bumpEvent, h2, h3]

/-! ### The classifier never emits INDIRECT_JUMP -/

theorem detectBranchType_ne_indirect (s : GenState) (f t : Nat) (d : Int) (q : Bool) :
    detectBranchType s f t d q ≠ BranchType.INDIRECT_JUMP := by
  unfold detectBranchType
  rcases alFind s.info f with _ | fi <;> rcases alFind s.info t with _ | ti <;>
    dsimp only <;> (repeat' split) <;> simp

/-! ### The branch-site invariant -/

/-- Every branch site in the ledger splits its execution count into taken
plus fall-through. -/
def BranchInv (m : List (Nat × BranchInfo)) : Prop :=
  ∀ p b, alFind m p = some b →
    b.total_executed = b.taken_count + b.fallthrough_count

theorem handleBranch_BranchInv (s : GenState) (f t : Nat) (ty : BranchType) (q : Bool)
    (h : BranchInv s.branches) : BranchInv (handleBranch s f t ty q).branches := by
  by_cases hty : ty = BranchType.BRANCH
  · subst hty
    have hb0 : (alGet defBranchInfo s.branches f).total_executed
        = (alGet defBranchInfo s.branches f).taken_count +
          (alGet defBranchInfo s.branches f).fallthrough_count := by
      cases hf : alFind s.branches f with
      | some w => rw [alGet_eq_of_alFind _ _ _ _ hf]; exact h f w hf
      | none => simp [alGet, hf, defBranchInfo]
    simp only [handleBranch]
    split
    · intro p b hb
      dsimp only at hb
      rw [alFind_alUpd] at hb
      by_cases hpf : p = f
      · rw [if_pos hpf] at hb
        injection hb with hb
        subst hb
        split <;> simp <;> omega
      · rw [if_neg hpf] at hb
        exact h p b hb
    · exact h
  · rw [handleBranch_branches s f t ty q hty]; exact h

/-! ### Per-phase lemmas for `recordExecution` -/

theorem recordExecution_info (s : GenState) (pc et cnt : Nat) (dr : Int) (ib : Bool) :
    (recordExecution s pc et cnt dr ib).info =
      (classifyStep (creditSelf (synthesizePC s pc) pc et cnt) pc).info := rfl

theorem recordExecution_acc (s : GenState) (pc et cnt : Nat) (dr : Int) (ib : Bool) :
    (recordExecution s pc et cnt dr ib).accumulated_events =
      (classifyStep (creditSelf (synthesizePC s pc) pc et cnt) pc).accumulated_events := rfl

theorem recordExecution_branches_eq (s : GenState) (pc et cnt : Nat) (dr : Int) (ib : Bool) :
    (recordExecution s pc et cnt dr ib).branches =
      (classifyStep (creditSelf (synthesizePC s pc) pc et cnt) pc).branches := rfl

theorem synthesizePC_sumEv (s : GenState) (pc i : Nat) :
    sumEv (synthesizePC s pc).info i = sumEv s.info i := by
  unfold synthesizePC
  split
  · rfl
  · dsimp only
    rw [sumEv_alUpd _ _ _ i 0 (fun v => by simp)]
    omega

theorem synthesizePC_ev (s : GenState) (pc p i : Nat) :
    evAt (synthesizePC s pc).info p i = evAt s.info p i := by
  unfold synthesizePC
  split
  · rfl
  · dsimp only
    rw [evAt_alUpd_event _ _ _ _ i 0 (fun v => by simp)]
    simp

theorem synthesizePC_acc (s : GenState) (pc : Nat) :
    (synthesizePC s pc).accumulated_events = s.accumulated_events := by
  unfold synthesizePC
  split <;> rfl

theorem synthesizePC_branches (s : GenState) (pc : Nat) :
    (synthesizePC s pc).branches = s.branches := by
  unfold synthesizePC
  split <;> rfl

theorem creditSelf_sumEv (s : GenState) (pc et cnt i : Nat) :
    sumEv (creditSelf s pc et cnt).info i =
      sumEv s.info i + (if i = et then cnt else 0) := by
  unfold creditSelf
  dsimp only
  apply sumEv_alUpd
  intro v
  by_cases h : i = et <;> simp [h]

theorem creditSelf_ev (s : GenState) (pc et cnt p i : Nat) :
    evAt (creditSelf s pc et cnt).info p i =
      evAt s.info p i + (if p = pc ∧ i = et then cnt else 0) := by
  unfold creditSelf
  dsimp only
  by_cases h : i = et
  · rw [evAt_alUpd_event _ _ _ _ i cnt (fun v => by simp [h])]
    simp [h]
  · rw [evAt_alUpd_event _ _ _ _ i 0 (fun v => by simp [h])]
    simp [h]

theorem creditSelf_acc (s : GenState) (pc et cnt i : Nat) :
    (creditSelf s pc et cnt).accumulated_events i =
      s.accumulated_events i + (if i = et then cnt else 0) := by
  unfold creditSelf
  dsimp only
  by_cases h : i = et <;> simp [h]

theorem creditSelf_branches (s : GenState) (pc et cnt : Nat) :
    (creditSelf s pc et cnt).branches = s.branches := rfl

theorem classifyStep_acc (s : GenState) (pc : Nat) :
    (classifyStep s pc).accumulated_events = s.accumulated_events := by
  simp only [classifyStep]
  (repeat' split) <;> first | rfl | apply handleBranch_acc

theorem classifyStep_sumEv (s : GenState) (pc i : Nat)
    (h2 : i ≠ 2) (h3 : i ≠ 3) :
    sumEv (classifyStep s pc).info i = sumEv s.info i := by
  simp only [classifyStep]
  (repeat' split) <;> first
    | rfl
    | exact handleBranch_sumEv _ _ _ _ _ _
        (detectBranchType_ne_indirect _ _ _ _ _) h2 h3

theorem classifyStep_ev (s : GenState) (pc p i : Nat) (h2 : i ≠ 2) (h3 : i ≠ 3) :
    evAt (classifyStep s pc).info p i = evAt s.info p i := by
  simp only [classifyStep]
  (repeat' split) <;> first
    | rfl
    | exact handleBranch_ev _ _ _ _ _ _ _
        (detectBranchType_ne_indirect _ _ _ _ _) h2 h3

theorem classifyStep_BranchInv (s : GenState) (pc : Nat) (h : BranchInv s.branches) :
    BranchInv (classifyStep s pc).branches := by
  simp only [classifyStep]
  (repeat' split) <;> first | exact h | exact handleBranch_BranchInv _ _ _ _ _ h

/-! ### Trace-level invariant lemmas -/

theorem recordExecution_sumEv_acc (s : GenState) (pc et cnt : Nat) (dr : Int) (ib : Bool)
    (i : Nat) (h2 : i ≠ 2) (h3 : i ≠ 3)
    (hs : sumEv s.info i = s.accumulated_events i) :
    sumEv (recordExecution s pc et cnt dr ib).info i =
      (recordExecution s pc et cnt dr ib).accumulated_events i := by
  rw [recordExecution_info, recordExecution_acc]
  rw [classifyStep_sumEv _ _ _ h2 h3, classifyStep_acc]
  rw [creditSelf_sumEv, creditSelf_acc, synthesizePC_sumEv, synthesizePC_acc, hs]

theorem runTrace_sumEv_acc (tr : List RecordCall) (s : GenState) (i : Nat)
    (h2 : i ≠ 2) (h3 : i ≠ 3)
    (hs : sumEv s.info i = s.accumulated_events i) :
    sumEv (runTrace s tr).info i = (runTrace s tr).accumulated_events i := by
  induction tr generalizing s with
  | nil => exact hs
  | cons c rest ih =>
      exact ih _ (recordExecution_sumEv_acc _ _ _ _ _ _ _ h2 h3 hs)

theorem recordExecution_ev45 (s : GenState) (pc et cnt : Nat) (dr : Int) (ib : Bool)
    (het4 : et ≠ 4) (het5 : et ≠ 5) (p : Nat)
    (hs4 : evAt s.info p 4 = 0) (hs5 : evAt s.info p 5 = 0) :
    evAt (recordExecution s pc et cnt dr ib).info p 4 = 0 ∧
      evAt (recordExecution s pc et cnt dr ib).info p 5 = 0 := by
  have h4' : (4 : Nat) ≠ et := fun h => het4 h.symm
  have h5' : (5 : Nat) ≠ et := fun h => het5 h.symm
  constructor
  · rw [recordExecution_info, classifyStep_ev _ _ _ _ (by decide) (by decide),
        creditSelf_ev, synthesizePC_ev, hs4]
    simp [h4']
  · rw [recordExecution_info, classifyStep_ev _ _ _ _ (by decide) (by decide),
        creditSelf_ev, synthesizePC_ev, hs5]
    simp [h5']

theorem runTrace_ev45 (tr : List RecordCall) (s : GenState)
    (hc : ∀ c ∈ tr, c.event_type ≠ 4 ∧ c.event_type ≠ 5)
    (hs : ∀ p, evAt s.info p 4 = 0 ∧ evAt s.info p 5 = 0) :
    ∀ p, evAt (runTrace s tr).info p 4 = 0 ∧ evAt (runTrace s tr).info p 5 = 0 := by
  induction tr generalizing s with
  | nil => exact hs
  | cons c rest ih =>
      apply ih
      · intro c' hc'
        exact hc c' (List.mem_cons_of_mem _ hc')
      · intro p
        obtain ⟨h4, h5⟩ := hc c (List.mem_cons_self _ _)
        exact recordExecution_ev45 _ _ _ _ _ _ h4 h5 p (hs p).1 (hs p).2

theorem recordExecution_BranchInv (s : GenState) (pc et cnt : Nat) (dr : Int) (ib : Bool)
    (h : BranchInv s.branches) :
    BranchInv (recordExecution s pc et cnt dr ib).branches := by
  rw [recordExecution_branches_eq]
  apply classifyStep_BranchInv
  rw [creditSelf_branches, synthesizePC_branches]
  exact h

theorem runTrace_BranchInv (tr : List RecordCall) (s : GenState)
    (h : BranchInv s.branches) : BranchInv (runTrace s tr).branches := by
  induction tr generalizing s with
  | nil => exact h
  | cons c rest ih =>
      exact ih _ (recordExecution_BranchInv _ _ _ _ _ _ h)

/-! ### Characterization of the BRANCH dispatch -/

theorem handleBranch_BRANCH_branches (s : GenState) (f t : Nat) (q : Bool)
    (hc : s.collect_jumps = true) :
    (handleBranch s f t BranchType.BRANCH q).branches
      = alUpd defBranchInfo s.branches f
          (fun _ => brUpdate (alGet defBranchInfo s.branches f) t q) := by
  simp only [handleBranch, brUpdate, hc]
  cases q <;> simp

theorem handleBranch_BRANCH_info (s : GenState) (f t : Nat) (q : Bool)
    (hc : s.collect_jumps = true) :
    (handleBranch s f t BranchType.BRANCH q).info
      = (if (brUpdate (alGet defBranchInfo s.branches f) t q).taken_count > 0
            ∧ (brUpdate (alGet defBranchInfo s.branches f) t q).fallthrough_count > 0 then
           if (brUpdate (alGet defBranchInfo s.branches f) t q).total_executed > 1
              ∧ (min (brUpdate (alGet defBranchInfo s.branches f) t q).taken_count
                     (brUpdate (alGet defBranchInfo s.branches f) t q).fallthrough_count
                   = (brUpdate (alGet defBranchInfo s.branches f) t q).taken_count
                 ∨ min (brUpdate (alGet defBranchInfo s.branches f) t q).taken_count
                     (brUpdate (alGet defBranchInfo s.branches f) t q).fallthrough_count
                   = (brUpdate (alGet defBranchInfo s.branches f) t q).fallthrough_count) then
             bumpEvent (bumpEvent s.info f 2) f 3
           else bumpEvent s.info f 2
         else bumpEvent s.info f 2) := by
  simp only [handleBranch, brUpdate, hc]
  cases q <;> simp

/-! ### Claims -/

/-- Claim C1, counterexample: the claim "for every event index i, the sum
over all PCs of self_events[p][i] equals running_totals[i] at every
moment" fails at event index 2 (`Bc`). After `c1_trace` the BRANCH
dispatch has bumped `Bc` on PC 0x5000 through `info[from_pc].event` only,
so the self-event sum at index 2 is 1 while the running total is 0. -/
theorem spec_c1_counterexample :
    sumEv (runTrace initState c1_trace).info 2 = 1 ∧
    (runTrace initState c1_trace).accumulated_events 2 = 0 ∧
    sumEv (runTrace initState c1_trace).info 2 ≠
      (runTrace initState c1_trace).accumulated_events 2 := by
  refine ⟨by decide, by decide, by decide⟩

/-- Claim C1 (amended): for every event index `i` other than the two
conditional-branch bookkeeping indices 2 (`Bc`) and 3 (`Bcm`) — in
particular for the host-credited `Ir` and `Cycle`, and also for `Bi` and
`Bim`, which the engine never bumps because the classifier never emits
INDIRECT_JUMP — the sum over all PCs of `self_events[p][i]` equals
`running_totals[i]` after every record call of every trace. -/
theorem spec_c1 (tr : List RecordCall) (i : Nat) (h2 : i ≠ 2) (h3 : i ≠ 3) :
    sumEv (runTrace initState tr).info i =
      (runTrace initState tr).accumulated_events i :=
  runTrace_sumEv_acc tr initState i h2 h3 rfl

/-- Claim C1, witness: the amended invariant evaluated on `c1_trace` at
event index 0 (`Ir`). -/
theorem spec_c1_witness :
    sumEv (runTrace initState c1_trace).info 0 =
      (runTrace initState c1_trace).accumulated_events 0 :=
  spec_c1 c1_trace 0 (by decide) (by decide)

/-- Claim C3: plain call/return end-to-end (spec scenario 1). After the
five record calls of `c3_trace` on the index of `c3_state0`, the edge
0x1004 → 0x2000 has count 1 and inclusive Ir 2, the shadow stack is
empty, and no branch sites were recorded. -/
theorem spec_c3 :
    (edgeAt (runTrace c3_state0 c3_trace).calls 0x1004 0x2000).count = 1 ∧
    (edgeAt (runTrace c3_state0 c3_trace).calls 0x1004 0x2000).inclusive_events 0 = 2 ∧
    (runTrace c3_state0 c3_trace).call_stack.isEmpty = true ∧
    (runTrace c3_state0 c3_trace).branches = [] := by
  refine ⟨by decide, by decide, by decide, by decide⟩

/-- Claim C4: the transition classifier never returns INDIRECT_JUMP, and
consequently — since only the INDIRECT_JUMP dispatch bumps them — the
self-cost events `Bi` (index 4) and `Bim` (index 5) stay zero on every PC
throughout any trace whose host-credited event indices are not 4 or 5. -/
theorem spec_c4 :
    (∀ (s : GenState) (f t : Nat) (d : Int) (q : Bool),
        detectBranchType s f t d q ≠ BranchType.INDIRECT_JUMP) ∧
    (∀ tr : List RecordCall, (∀ c ∈ tr, c.event_type ≠ 4 ∧ c.event_type ≠ 5) →
        ∀ p, evAt (runTrace initState tr).info p 4 = 0 ∧
             evAt (runTrace initState tr).info p 5 = 0) := by
  constructor
  · exact detectBranchType_ne_indirect
  · intro tr hc p
    exact runTrace_ev45 tr initState hc (fun _ => ⟨rfl, rfl⟩) p

/-- Claim C4, witness: after the one-record trace `c4_wtrace` the Bi and
Bim self counters of the recorded PC are zero. -/
theorem spec_c4_witness :
    evAt (runTrace initState c4_wtrace).info 0x9999 4 = 0 ∧
    evAt (runTrace initState c4_wtrace).info 0x9999 5 = 0 :=
  spec_c4.2 c4_wtrace (by decide) 0x9999

/-- Claim C6: at every moment of every trace, every branch site in the
ledger satisfies `total_executed = taken_count + fallthrough_count`. -/
theorem spec_c6 (tr : List RecordCall) (p : Nat) (b : BranchInfo)
    (h : alFind (runTrace initState tr).branches p = some b) :
    b.total_executed = b.taken_count + b.fallthrough_count :=
  runTrace_BranchInv tr initState (fun _ _ hx => by simp [alFind] at hx) p b h

/-- Claim C6, witness: the invariant evaluated at the branch site 0x5000
created by `c1_trace`. -/
theorem spec_c6_witness :
    (alGet defBranchInfo (runTrace initState c1_trace).branches 0x5000).total_executed
      = (alGet defBranchInfo (runTrace initState c1_trace).branches 0x5000).taken_count
        + (alGet defBranchInfo (runTrace initState c1_trace).branches 0x5000).fallthrough_count :=
  spec_c6 c1_trace 0x5000 _ rfl

/-- Claim C7: a RETURN dispatched against an empty shadow stack is
silently discarded — the stack, the call-edge ledger, the branch sites,
the jump edges, the self events and the running totals are all left
unchanged. -/
theorem spec_c7 (s : GenState) (f t : Nat) (q : Bool) (h : s.call_stack = []) :
    (handleBranch s f t BranchType.RETURN q).call_stack = [] ∧
    (handleBranch s f t BranchType.RETURN q).calls = s.calls ∧
    (handleBranch s f t BranchType.RETURN q).branches = s.branches ∧
    (handleBranch s f t BranchType.RETURN q).jumps = s.jumps ∧
    (handleBranch s f t BranchType.RETURN q).info = s.info ∧
    (handleBranch s f t BranchType.RETURN q).accumulated_events = s.accumulated_events := by
  have hid : handleBranch s f t BranchType.RETURN q = s := by
    simp only [handleBranch, h]
  rw [hid]
  exact ⟨h, rfl, rfl, rfl, rfl, rfl⟩

/-- Claim C7, witness: the empty-stack RETURN discard evaluated at the
freshly constructed engine state. -/
theorem spec_c7_witness :
    (handleBranch initState 5 6 BranchType.RETURN false).call_stack = [] ∧
    (handleBranch initState 5 6 BranchType.RETURN false).calls = initState.calls := by
  have h := spec_c7 initState 5 6 false rfl
  exact ⟨h.1, h.2.1⟩

/-- Claim C9: the save-helper trampoline scenario (spec scenario 5). The
second CALL, whose physical site 0x7004 lies in `__riscv_save_0`, is
re-attributed to the remembered real caller 0x1004, so the ledger holds
edges 0x1004 → 0x7000 and 0x1004 → 0x8000 (count 1 each) and no edge at
all out of 0x7004. -/
theorem spec_c9 :
    (edgeAt (runTrace c9_state0 c9_trace).calls 0x1004 0x7000).count = 1 ∧
    (edgeAt (runTrace c9_state0 c9_trace).calls 0x1004 0x8000).count = 1 ∧
    (alFind (runTrace c9_state0 c9_trace).calls 0x7004).isNone = true := by
  refine ⟨by decide, by decide, by decide⟩

/-- Claim C5: on every BRANCH dispatch (with jump collection on, its
default) against a ledger whose site satisfies the split invariant, the
engine bumps the site's `total_executed`, records the taken or the
fall-through outcome, always bumps the self event `Bc` (index 2) on the
source PC, and bumps `Bcm` (index 3) exactly when both `taken_count` and
`fallthrough_count` are positive after the update — the source's extra
guard (`total_executed > 1` and the minority test) is implied. -/
theorem spec_c5 (s : GenState) (f t : Nat) (q : Bool)
    (hc : s.collect_jumps = true)
    (hinv : (alGet defBranchInfo s.branches f).total_executed
          = (alGet defBranchInfo s.branches f).taken_count
            + (alGet defBranchInfo s.branches f).fallthrough_count) :
    (alGet defBranchInfo (handleBranch s f t BranchType.BRANCH q).branches f).total_executed
      = (alGet defBranchInfo s.branches f).total_executed + 1
  ∧ (q = true →
      (alGet defBranchInfo (handleBranch s f t BranchType.BRANCH q).branches f).fallthrough_target = t
      ∧ (alGet defBranchInfo (handleBranch s f t BranchType.BRANCH q).branches f).fallthrough_count
          = (alGet defBranchInfo s.branches f).fallthrough_count + 1
      ∧ (alGet defBranchInfo (handleBranch s f t BranchType.BRANCH q).branches f).taken_count
          = (alGet defBranchInfo s.branches f).taken_count)
  ∧ (q = false →
      (alGet defBranchInfo (handleBranch s f t BranchType.BRANCH q).branches f).taken_target = t
      ∧ (alGet defBranchInfo (handleBranch s f t BranchType.BRANCH q).branches f).taken_count
          = (alGet defBranchInfo s.branches f).taken_count + 1
      ∧ (alGet defBranchInfo (handleBranch s f t BranchType.BRANCH q).branches f).fallthrough_count
          = (alGet defBranchInfo s.branches f).fallthrough_count)
  ∧ evAt (handleBranch s f t BranchType.BRANCH q).info f 2 = evAt s.info f 2 + 1
  ∧ evAt (handleBranch s f t BranchType.BRANCH q).info f 3 =
      (if 0 < (alGet defBranchInfo (handleBranch s f t BranchType.BRANCH q).branches f).taken_count
          ∧ 0 < (alGet defBranchInfo (handleBranch s f t BranchType.BRANCH q).branches f).fallthrough_count
        then evAt s.info f 3 + 1 else evAt s.info f 3) := by
  have hbr : alGet defBranchInfo (handleBranch s f t BranchType.BRANCH q).branches f
      = brUpdate (alGet defBranchInfo s.branches f) t q := by
    rw [handleBranch_BRANCH_branches s f t q hc, alGet_alUpd]
    simp
  rw [hbr, handleBranch_BRANCH_info s f t q hc]
  set b0 := alGet defBranchInfo s.branches f with hb0
  set bu := brUpdate b0 t q with hbu
  have htot : bu.total_executed = b0.total_executed + 1 := by
    rw [hbu]; unfold brUpdate; cases q <;> simp
  have hseq : q = true → bu.fallthrough_target = t
      ∧ bu.fallthrough_count = b0.fallthrough_count + 1
      ∧ bu.taken_count = b0.taken_count := by
    intro hq; rw [hbu]; unfold brUpdate; rw [hq]; simp
  have hnseq : q = false → bu.taken_target = t
      ∧ bu.taken_count = b0.taken_count + 1
      ∧ bu.fallthrough_count = b0.fallthrough_count := by
    intro hq; rw [hbu]; unfold brUpdate; rw [hq]; simp
  refine ⟨htot, hseq, hnseq, ?_, ?_⟩
  · by_cases hcond : bu.taken_count > 0 ∧ bu.fallthrough_count > 0
    · rw [if_pos hcond]
      by_cases hcond2 : bu.total_executed > 1
          ∧ (min bu.taken_count bu.fallthrough_count = bu.taken_count
             ∨ min bu.taken_count bu.fallthrough_count = bu.fallthrough_count)
      · rw [if_pos hcond2, evAt_bumpEvent, evAt_bumpEvent]
        simp
      · rw [if_neg hcond2, evAt_bumpEvent]
        simp
    · rw [if_neg hcond, evAt_bumpEvent]
      simp
  · by_cases hcond : bu.taken_count > 0 ∧ bu.fallthrough_count > 0
    · have himp : bu.total_executed > 1
          ∧ (min bu.taken_count bu.fallthrough_count = bu.taken_count
             ∨ min bu.taken_count bu.fallthrough_count = bu.fallthrough_count) := by
        constructor
        · have h1 : bu.taken_count + bu.fallthrough_count
              = b0.taken_count + b0.fallthrough_count + 1 := by
            rw [hbu]; unfold brUpdate; cases q <;> simp <;> omega
          have h2 : bu.total_executed = b0.taken_count + b0.fallthrough_count + 1 := by
            rw [htot, hinv]
          omega
        · exact min_choice bu.taken_count bu.fallthrough_count
      rw [if_pos hcond, if_pos himp, if_pos ⟨hcond.1, hcond.2⟩,
          evAt_bumpEvent, evAt_bumpEvent]
      simp
    · have hcond' : ¬ (0 < bu.taken_count ∧ 0 < bu.fallthrough_count) := hcond
      rw [if_neg hcond, if_neg hcond', evAt_bumpEvent]
      simp

/-- Claim C5, witness: the BRANCH dispatch evaluated at a fresh engine
state (non-sequential outcome): Bc on the source PC goes from 0 to 1. -/
theorem spec_c5_witness :
    evAt (handleBranch initState 64 72 BranchType.BRANCH false).info 64 2
      = evAt initState.info 64 2 + 1 :=
  (spec_c5 initState 64 72 false rfl rfl).2.2.2.1

/-- Claim C8: every FALL_THROUGH dispatch pushes a frame flagged
`is_fall_through` and bumps the edge count, flagging the edge as well;
and in spec scenario 6 the ledger ends with edge 0x6004 → 0x6008,
count 1, flagged as fall-through. -/
theorem spec_c8 :
    (∀ (s : GenState) (f t : Nat) (q : Bool),
      ∃ e : CallStackEntry,
        (handleBranch s f t BranchType.FALL_THROUGH q).call_stack = e :: s.call_stack ∧
        e.is_fall_through = true ∧ e.is_tail_call = false ∧
        e.caller_pc = f ∧ e.callee_pc = t ∧
        (edgeAt (handleBranch s f t BranchType.FALL_THROUGH q).calls f t).count
          = (edgeAt s.calls f t).count + 1 ∧
        (edgeAt (handleBranch s f t BranchType.FALL_THROUGH q).calls f t).is_fall_through
          = true) ∧
    ((edgeAt (runTrace c8_state0 c8_trace).calls 0x6004 0x6008).count = 1 ∧
     (edgeAt (runTrace c8_state0 c8_trace).calls 0x6004 0x6008).is_fall_through = true) := by
  constructor
  · intro s f t q
    have hcalls : (handleBranch s f t BranchType.FALL_THROUGH q).calls
        = bumpCallFT s.calls f t := rfl
    refine ⟨_, rfl, rfl, rfl, rfl, rfl, ?_, ?_⟩
    · rw [hcalls, edgeAt_bumpCallFT]
      simp
    · rw [hcalls, edgeAt_bumpCallFT]
      simp
  · exact ⟨by decide, by decide⟩

/-- Claim C10, counterexample: a transition from the save helper 0x7000
to the restore helper 0x9000 is classified TAIL_CALL while the shadow
stack is empty, yet — because `from_pc` lies in a compiler helper — the
dispatch is discarded and `CallEdge(0x7000, 0x9000).count` is never
incremented (the ledger stays empty). -/
theorem spec_c10_counterexample :
    detectBranchType (runTrace c10_state0 c10_trace1) 0x7000 0x9000 (-1) false
      = BranchType.TAIL_CALL ∧
    (runTrace c10_state0 c10_trace1).call_stack.isEmpty = true ∧
    (runTrace c10_state0 c10_trace2).calls.isEmpty = true := by
  refine ⟨by decide, by decide, by decide⟩

/-- Claim C10 (amended): if a transition whose source PC lies outside the
compiler helpers is classified TAIL_CALL while the shadow stack is empty,
the engine still bumps `CallEdge(from_pc, to_pc).count` but pushes no
frame — the stack stays empty and the edge's inclusive events are
untouched (a dispatch from inside a helper is discarded entirely). -/
theorem spec_c10 (s : GenState) (f t : Nat) (q : Bool)
    (h1 : s.call_stack = []) (h2 : ftypeAt s.info f = FunctionType.NORMAL) :
    (edgeAt (handleBranch s f t BranchType.TAIL_CALL q).calls f t).count
      = (edgeAt s.calls f t).count + 1 ∧
    (handleBranch s f t BranchType.TAIL_CALL q).call_stack = [] ∧
    (∀ i, (edgeAt (handleBranch s f t BranchType.TAIL_CALL q).calls f t).inclusive_events i
      = (edgeAt s.calls f t).inclusive_events i) := by
  have hred : handleBranch s f t BranchType.TAIL_CALL q
      = { s with calls := bumpCall s.calls f t } := by
    simp only [handleBranch, h2, h1]
    simp [isCompilerHelper]
  rw [hred]
  refine ⟨?_, h1, ?_⟩
  · show (edgeAt (bumpCall s.calls f t) f t).count = (edgeAt s.calls f t).count + 1
    rw [edgeAt_bumpCall]
    simp
  · intro i
    show (edgeAt (bumpCall s.calls f t) f t).inclusive_events i
      = (edgeAt s.calls f t).inclusive_events i
    rw [edgeAt_bumpCall]
    simp

/-- Claim C10, witness: the amended tail-call behaviour evaluated at the
fresh engine state. -/
theorem spec_c10_witness :
    (edgeAt (handleBranch initState 1 2 BranchType.TAIL_CALL false).calls 1 2).count
      = (edgeAt initState.calls 1 2).count + 1 ∧
    (handleBranch initState 1 2 BranchType.TAIL_CALL false).call_stack = [] := by
  have h := spec_c10 initState 1 2 false rfl rfl
  exact ⟨h.1, h.2.1⟩

/-- Claim C2, counterexample: on the tail-chain closure of `c2_trace` the
delta added to the tail edge 0x2004 → 0x3000 is 2 (totals 7 minus the
tail frame's snapshot 5), but the edge 0x1004 → 0x2000 receives 4 (totals
7 minus the outer frame's own snapshot 3) — not "the same delta" the
claim states. -/
theorem spec_c2_counterexample :
    (edgeAt (runTrace c2_state0 c2_trace).calls 0x2004 0x3000).inclusive_events 0 = 2 ∧
    (edgeAt (runTrace c2_state0 c2_trace).calls 0x1004 0x2000).inclusive_events 0 = 4 ∧
    (edgeAt (runTrace c2_state0 c2_trace).calls 0x1004 0x2000).inclusive_events 0 ≠
      (edgeAt (runTrace c2_state0 c2_trace).calls 0x2004 0x3000).inclusive_events 0 := by
  refine ⟨by decide, by decide, by decide⟩

/-- Claim C2 (amended): on a RETURN with a non-empty shadow stack the
engine pops the top frame `f` and adds
`delta[i] = running_totals[i] - f.events_at_entry[i]` to
`CallEdge(f.caller_pc, f.callee_pc).inclusive_events[i]`; if `f` was a
tail call and the stack is still non-empty, the engine additionally pops
the new top `g` and adds `delta2[i] = running_totals[i] -
g.events_at_entry[i]` — computed from `g`'s own snapshot, not the same
delta — to `CallEdge(g.caller_pc, g.callee_pc)` (stated for distinct edge
keys so the two contributions do not alias). -/
theorem spec_c2 (s : GenState) (a b : Nat) (q : Bool) (f : CallStackEntry)
    (rest : List CallStackEntry) (h : s.call_stack = f :: rest) :
    (f.is_tail_call = false →
      (handleBranch s a b BranchType.RETURN q).call_stack = rest ∧
      ∀ i, (edgeAt (handleBranch s a b BranchType.RETURN q).calls
              f.caller_pc f.callee_pc).inclusive_events i
        = (edgeAt s.calls f.caller_pc f.callee_pc).inclusive_events i
          + (s.accumulated_events i - f.events_at_entry i))
  ∧ (f.is_tail_call = true → rest = [] →
      (handleBranch s a b BranchType.RETURN q).call_stack = [] ∧
      ∀ i, (edgeAt (handleBranch s a b BranchType.RETURN q).calls
              f.caller_pc f.callee_pc).inclusive_events i
        = (edgeAt s.calls f.caller_pc f.callee_pc).inclusive_events i
          + (s.accumulated_events i - f.events_at_entry i))
  ∧ (∀ g rest2, f.is_tail_call = true → rest = g :: rest2 →
      (f.caller_pc ≠ g.caller_pc ∨ f.callee_pc ≠ g.callee_pc) →
      (handleBranch s a b BranchType.RETURN q).call_stack = rest2 ∧
      (∀ i, (edgeAt (handleBranch s a b BranchType.RETURN q).calls
               f.caller_pc f.callee_pc).inclusive_events i
         = (edgeAt s.calls f.caller_pc f.callee_pc).inclusive_events i
           + (s.accumulated_events i - f.events_at_entry i)) ∧
      (∀ i, (edgeAt (handleBranch s a b BranchType.RETURN q).calls
               g.caller_pc g.callee_pc).inclusive_events i
         = (edgeAt s.calls g.caller_pc g.callee_pc).inclusive_events i
           + (s.accumulated_events i - g.events_at_entry i))) := by
  refine ⟨?_, ?_, ?_⟩
  · intro hf
    have hred : handleBranch s a b BranchType.RETURN q
        = { s with
            calls := addIncl s.calls f.caller_pc f.callee_pc
              (fun i => s.accumulated_events i - f.events_at_entry i),
            call_stack := rest } := by
      simp only [handleBranch, h, hf]
      rfl
    rw [hred]
    refine ⟨rfl, fun i => ?_⟩
    show (edgeAt (addIncl s.calls f.caller_pc f.callee_pc
        (fun i => s.accumulated_events i - f.events_at_entry i))
        f.caller_pc f.callee_pc).inclusive_events i = _
    rw [edgeAt_addIncl]
    simp
  · intro hf hrest
    have hred : handleBranch s a b BranchType.RETURN q
        = { s with
            calls := addIncl s.calls f.caller_pc f.callee_pc
              (fun i => s.accumulated_events i - f.events_at_entry i),
            call_stack := [] } := by
      simp only [handleBranch, h, hf, hrest]
      rfl
    rw [hred]
    refine ⟨rfl, fun i => ?_⟩
    show (edgeAt (addIncl s.calls f.caller_pc f.callee_pc
        (fun i => s.accumulated_events i - f.events_at_entry i))
        f.caller_pc f.callee_pc).inclusive_events i = _
    rw [edgeAt_addIncl]
    simp
  · intro g rest2 hf hrest hne
    have hred : handleBranch s a b BranchType.RETURN q
        = { s with
            calls := addIncl (addIncl s.calls f.caller_pc f.callee_pc
                (fun i => s.accumulated_events i - f.events_at_entry i))
              g.caller_pc g.callee_pc
              (fun i => s.accumulated_events i - g.events_at_entry i),
            call_stack := rest2 } := by
      simp only [handleBranch, h, hf, hrest]
      rfl
    rw [hred]
    have hkey : ¬ (f.caller_pc = g.caller_pc ∧ f.callee_pc = g.callee_pc) := by
      rcases hne with hne | hne <;> exact fun hc => hne (by omega)
    have hkey' : ¬ (g.caller_pc = f.caller_pc ∧ g.callee_pc = f.callee_pc) := by
      rcases hne with hne | hne <;> exact fun hc => hne (by omega)
    refine ⟨rfl, fun i => ?_, fun i => ?_⟩
    · show (edgeAt (addIncl (addIncl s.calls f.caller_pc f.callee_pc
          (fun i => s.accumulated_events i - f.events_at_entry i))
          g.caller_pc g.callee_pc
          (fun i => s.accumulated_events i - g.events_at_entry i))
          f.caller_pc f.callee_pc).inclusive_events i = _
      rw [edgeAt_addIncl, if_neg hkey, edgeAt_addIncl]
      simp
    · show (edgeAt (addIncl (addIncl s.calls f.caller_pc f.callee_pc
          (fun i => s.accumulated_events i - f.events_at_entry i))
          g.caller_pc g.callee_pc
          (fun i => s.accumulated_events i - g.events_at_entry i))
          g.caller_pc g.callee_pc).inclusive_events i = _
      rw [edgeAt_addIncl, if_pos ⟨rfl, rfl⟩, edgeAt_addIncl, if_neg hkey']

/-- Claim C2, witness: the amended RETURN behaviour evaluated on a state
holding a tail frame (snapshot 5) over an outer frame (snapshot 3) with
running totals 7: the two edges receive 2 and 4 respectively and both
frames are popped. -/
theorem spec_c2_witness :
    (handleBranch c2w_s 100 200 BranchType.RETURN false).call_stack = [] ∧
    (edgeAt (handleBranch c2w_s 100 200 BranchType.RETURN false).calls
        c2w_f.caller_pc c2w_f.callee_pc).inclusive_events 0 = 2 ∧
    (edgeAt (handleBranch c2w_s 100 200 BranchType.RETURN false).calls
        c2w_g.caller_pc c2w_g.callee_pc).inclusive_events 0 = 4 := by
  have h := (spec_c2 c2w_s 100 200 false c2w_f [c2w_g] rfl).2.2 c2w_g [] rfl rfl
    (by decide)
  refine ⟨h.1, ?_, ?_⟩
  · rw [h.2.1 0]
    decide
  · rw [h.2.2 0]
    decide
